import Mathlib

/-!
Verification of the ScrapeHubAI core pipeline: the text-heuristic scoring
engine (`src/evaluator.py`), the company aggregation of the trace stage and
the stage orchestration (`src/agent.py`).  Python strings are modelled over
their character lists (ASCII behaviour of `lower`/`strip`/`in`), Python
`None`-able fields as `Option`, and the two external boundaries
(`fetch_stargazers`, `get_user_company`, `search_company_info`) as oracle
parameters, matching the non-raising result values the nodes handle.
-/

namespace ScrapeHub

/-! ### String helpers (Python `str` operations, ASCII model) -/

/-- Python `str.lower()` (ASCII model): lower-case every character. -/
def strLower (s : String) : String := ⟨s.data.map Char.toLower⟩

/-- Python `str.strip()` (ASCII model): drop whitespace at both ends. -/
def strTrim (s : String) : String :=
  ⟨((s.data.dropWhile Char.isWhitespace).reverse.dropWhile Char.isWhitespace).reverse⟩

/-- Python `s.startswith(p)`. -/
def strStartsWith (s p : String) : Bool := p.data.isPrefixOf s.data

/-- Python substring test `needle in hay` on character lists. -/
def containsSub (hay needle : List Char) : Bool :=
  match hay with
  | [] => needle.isEmpty
  | _ :: t => needle.isPrefixOf hay || containsSub t needle

/-- Python `int()` of a digit string (the regex groups are `\d+`). -/
def digitsToNat (ds : List Char) : Nat :=
  ds.foldl (fun acc c => 10 * acc + (c.toNat - '0'.toNat)) 0

/-! ### `src/evaluator.py`: keyword tables (insertion order of the dicts) -/

def tech_keywords : List (String × Int) :=
  [("ai", 10), ("artificial intelligence", 10), ("machine learning", 10), ("ml", 8),
   ("data science", 10), ("data analytics", 8), ("big data", 8),
   ("scraping", 15), ("web scraping", 15), ("data extraction", 12),
   ("automation", 8), ("rpa", 10), ("robotic process", 10),
   ("api", 5), ("integration", 5), ("etl", 8), ("data pipeline", 10)]

def industry_keywords : List (String × Int) :=
  [("e-commerce", 15), ("retail", 12), ("marketplace", 12),
   ("fintech", 10), ("finance", 8), ("banking", 8),
   ("saas", 10), ("software", 8), ("technology", 5),
   ("analytics", 10), ("intelligence", 8), ("insights", 8),
   ("marketing", 8), ("advertising", 8), ("media", 6)]

def growth_keywords : List String :=
  ["scaling", "growing", "expanding", "hiring", "series a", "series b",
   "series c", "funded", "funding", "investment", "unicorn"]

def data_need_keywords : List String :=
  ["competitive intelligence", "market research", "price monitoring",
   "lead generation", "content aggregation", "data collection"]

/-- Keywords of the tech table found in the (lowered) info text, table order. -/
def found_tech (info_lower : String) : List String :=
  (tech_keywords.filter (fun kv => containsSub info_lower.data kv.1.data)).map Prod.fst

/-- Sum of the weights of the matching tech keywords (before the cap). -/
def tech_raw (info_lower : String) : Int :=
  ((tech_keywords.filter (fun kv => containsSub info_lower.data kv.1.data)).map Prod.snd).sum

/-- `tech_score = min(tech_score, 40)` of the source. -/
def tech_score (info_lower : String) : Int := min (tech_raw info_lower) 40

def found_industries (info_lower : String) : List String :=
  (industry_keywords.filter (fun kv => containsSub info_lower.data kv.1.data)).map Prod.fst

def industry_raw (info_lower : String) : Int :=
  ((industry_keywords.filter (fun kv => containsSub info_lower.data kv.1.data)).map Prod.snd).sum

/-- `industry_score = min(industry_score, 30)` of the source. -/
def industry_score (info_lower : String) : Int := min (industry_raw info_lower) 30

/-! ### `src/evaluator.py`: the size regular expressions

The four patterns `(\d+)[\s\-,]+employees`, `employees?[\s:]+(\d+)`,
`team\s+of\s+(\d+)`, `(\d+)\s+people` are embedded as matchers at a fixed
start position; for each of them the regex engine's greedy matching with
backtracking is deterministic (a shorter `\d+`, `[\s\-,]+`, `[\s:]+` or
`\s+` run always fails on the very next character class/literal), so the
greedy reading below is exact.  `re.search` = first position at which the
matcher succeeds. -/

def isSep1 (c : Char) : Bool := c.isWhitespace || c = '-' || c = ','

def isSep2 (c : Char) : Bool := c.isWhitespace || c = ':'

/-- `(\d+)[\s\-,]+employees` anchored at the head; returns the group. -/
def p1At (cs : List Char) : Option (List Char) :=
  let ds := cs.takeWhile Char.isDigit
  let rest := cs.dropWhile Char.isDigit
  if ds.isEmpty then none
  else
    let seps := rest.takeWhile isSep1
    let rest2 := rest.dropWhile isSep1
    if seps.isEmpty then none
    else if "employees".data.isPrefixOf rest2 then some ds else none

/-- `employees?[\s:]+(\d+)` anchored at the head; returns the group. -/
def p2At (cs : List Char) : Option (List Char) :=
  if "employee".data.isPrefixOf cs then
    let rest := cs.drop 8
    let rest1 := if rest.head? = some 's' then rest.tail else rest
    let seps := rest1.takeWhile isSep2
    let rest2 := rest1.dropWhile isSep2
    if seps.isEmpty then none
    else
      let ds := rest2.takeWhile Char.isDigit
      if ds.isEmpty then none else some ds
  else none

/-- `team\s+of\s+(\d+)` anchored at the head; returns the group. -/
def p3At (cs : List Char) : Option (List Char) :=
  if "team".data.isPrefixOf cs then
    let r0 := cs.drop 4
    let ws1 := r0.takeWhile Char.isWhitespace
    let r1 := r0.dropWhile Char.isWhitespace
    if ws1.isEmpty then none
    else if "of".data.isPrefixOf r1 then
      let r2 := r1.drop 2
      let ws2 := r2.takeWhile Char.isWhitespace
      let r3 := r2.dropWhile Char.isWhitespace
      if ws2.isEmpty then none
      else
        let ds := r3.takeWhile Char.isDigit
        if ds.isEmpty then none else some ds
    else none
  else none

/-- `(\d+)\s+people` anchored at the head; returns the group. -/
def p4At (cs : List Char) : Option (List Char) :=
  let ds := cs.takeWhile Char.isDigit
  let rest := cs.dropWhile Char.isDigit
  if ds.isEmpty then none
  else
    let ws := rest.takeWhile Char.isWhitespace
    let rest2 := rest.dropWhile Char.isWhitespace
    if ws.isEmpty then none
    else if "people".data.isPrefixOf rest2 then some ds else none

/-- `re.search`: try the matcher at each start position, left to right. -/
def reSearch (p : List Char → Option (List Char)) : List Char → Option (List Char)
  | [] => p []
  | c :: cs =>
    match p (c :: cs) with
    | some r => some r
    | none => reSearch p cs

/-- `int(match.group(group).replace(",", ""))`: the comma strip is kept
although a `\d+` group never contains one. -/
def parse_group (ds : List Char) : Nat := digitsToNat (ds.filter (fun c => c ≠ ','))

/-- The `company_size` loop: first pattern (in source order) whose
`re.search` succeeds provides the value; otherwise 0. -/
def extractSize (info_lower : String) : Nat :=
  match reSearch p1At info_lower.data with
  | some ds => parse_group ds
  | none =>
    match reSearch p2At info_lower.data with
    | some ds => parse_group ds
    | none =>
      match reSearch p3At info_lower.data with
      | some ds => parse_group ds
      | none =>
        match reSearch p4At info_lower.data with
        | some ds => parse_group ds
        | none => 0

/-- Points added in the `if company_size > 0` ladder. -/
def size_points (n : Nat) : Int :=
  if 0 < n then
    if 1000 ≤ n then 20
    else if 200 ≤ n then 15
    else if 50 ≤ n then 10
    else if 10 ≤ n then 5
    else 0
  else 0

/-- Reason strings added in the `if company_size > 0` ladder. -/
def size_reasons (n : Nat) : List String :=
  if 0 < n then
    if 1000 ≤ n then ["Large enterprise (" ++ toString n ++ "+ employees)"]
    else if 200 ≤ n then ["Mid-size company (" ++ toString n ++ " employees)"]
    else if 50 ≤ n then ["Growing company (" ++ toString n ++ " employees)"]
    else if 10 ≤ n then ["Small company (" ++ toString n ++ " employees)"]
    else []
  else []

/-- `if growth_found: score += 10`. -/
def growth_points (info_lower : String) : Int :=
  if (growth_keywords.filter (fun k => containsSub info_lower.data k.data)).isEmpty
  then 0 else 10

/-- `if any(keyword in info_lower for ...): score += 10`. -/
def bonus_points (info_lower : String) : Int :=
  if data_need_keywords.any (fun k => containsSub info_lower.data k.data) then 10 else 0

/-! ### `src/tools.py` / `src/agent.py`: account records -/

/-- The dict returned by `get_user_company` restricted to the fields the
pipeline reads (`company`, `organizations`); `username`/`error` are carried
along, the remaining profile fields play no role in aggregation or scoring. -/
structure UserInfo where
  username : String
  company : Option String
  organizations : List String
  error : Option String
deriving DecidableEq, Repr

/-- Python value stored in the `company_size` field: an `int` or the
literal string `"Unknown"`. -/
inductive SizeField where
  | known (n : Nat)
  | unknown
deriving DecidableEq, Repr

/-- The dict returned by `evaluate_company`. -/
structure Evaluation where
  company : String
  score : Int
  recommendation : String
  reasons : List String
  company_size : SizeField
  summary : String
deriving DecidableEq, Repr

/-- `evaluate_company` of `src/evaluator.py`.  The `user_info` parameter is
accepted (Python default `None`) and, as in the source, never read. -/
def evaluate_company (company_name : String) (scraped_info : String)
    (user_info : Option UserInfo) : Evaluation :=
  let info_lower := strLower scraped_info
  let ft := found_tech info_lower
  let ts := tech_score info_lower
  let fi := found_industries info_lower
  let inds := industry_score info_lower
  let n := extractSize info_lower
  let gp := growth_points info_lower
  let bp := bonus_points info_lower
  let reasons :=
    (if ft.isEmpty then []
     else ["Uses relevant technologies: " ++ String.intercalate ", " (ft.take 3)])
    ++ (if fi.isEmpty then []
        else ["Operates in relevant industries: " ++ String.intercalate ", " (fi.take 2)])
    ++ size_reasons n
    ++ (if (growth_keywords.filter (fun k => containsSub info_lower.data k.data)).isEmpty
        then [] else ["Shows growth indicators"])
    ++ (if data_need_keywords.any (fun k => containsSub info_lower.data k.data)
        then ["Has explicit data collection needs"] else [])
  let final_score := min (ts + inds + size_points n + gp + bp) 100
  let recommendation :=
    if 70 ≤ final_score then "High Priority"
    else if 50 ≤ final_score then "Medium Priority"
    else if 30 ≤ final_score then "Low Priority"
    else "Not Recommended"
  { company := company_name
    score := final_score
    recommendation := recommendation
    reasons := reasons
    company_size := if 0 < n then SizeField.known n else SizeField.unknown
    summary := recommendation ++ " - " ++
      (if reasons.isEmpty then "Limited relevant indicators found"
       else String.intercalate "; " reasons) }

/-- `rank_companies` of `src/evaluator.py`: Python's `sorted` with
`key=lambda x: x["score"], reverse=True` is the stable sort by score
descending, i.e. insertion sort for the total preorder
`score b ≤ score a`. -/
def rank_companies {α : Type} (score : α → Int) (l : List α) : List α :=
  List.insertionSort (fun a b => score b ≤ score a) l

/-! ### `src/agent.py`: the trace stage's company aggregation -/

/-- One entry of the `companies` list built by `trace_companies_node`. -/
structure CompanyCandidate where
  name : String
  source_user : String
  user_info : UserInfo
deriving DecidableEq, Repr

/-- The `company_name` extraction of `trace_companies_node`: a truthy
(non-`None`, non-empty) `company` field is stripped; otherwise a non-empty
`organizations` list provides its first entry verbatim. -/
def extract_company_name (info : UserInfo) : Option String :=
  match info.company with
  | some c => if c = "" then info.organizations.head? else some (strTrim c)
  | none => info.organizations.head?

/-- The aggregation loop over `(user, user_info)` pairs: a truthy extracted
name not yet in `processed_companies` yields a candidate and is recorded. -/
def aggregate_companies (processed : List String) :
    List (String × UserInfo) → List CompanyCandidate
  | [] => []
  | (user, info) :: rest =>
    match extract_company_name info with
    | some name =>
      if name = "" ∨ name ∈ processed then aggregate_companies processed rest
      else { name := name, source_user := user, user_info := info } ::
        aggregate_companies (name :: processed) rest
    | none => aggregate_companies processed rest

/-! ### `src/agent.py`: state, nodes and the compiled workflow -/

/-- `AgentState` (the `messages` channel is never read by the nodes and is
omitted; `repo`/`max_stargazers` only parameterize the external fetch). -/
structure AgentState where
  repo : String
  stargazers : List String
  companies : List CompanyCandidate
  evaluations : List (Evaluation × String × UserInfo)
  current_step : String
  error : Option String
  max_stargazers : Nat
  max_users : Nat
deriving Repr

/-- Python truthiness of the `error` field (`None` and `""` are falsy). -/
def truthyErr : Option String → Bool
  | none => false
  | some s => !s.isEmpty

/-- Value returned by the `fetch_stargazers` boundary as handled by the
node: a bare string, a list of strings, or some other type (whose repr the
node only uses in its error message). -/
inductive FetchResult where
  | str (s : String)
  | list (l : List String)
  | other (typeName : String)

/-- The three external boundaries, modelled as oracles: the fetch result,
the dict `get_user_company` yields per username (a non-dict result is
handled by the node as the fallback record, which the oracle can also
produce), and the string `search_company_info` yields per company name. -/
structure Oracles where
  fetchRes : FetchResult
  userInfoOf : String → UserInfo
  companyInfoOf : String → String

/-- `fetch_stargazers_node` (non-raising path; the boundary result is the
oracle value). -/
def fetch_stargazers_node (fetchRes : FetchResult) (state : AgentState) : AgentState :=
  let state :=
    match fetchRes with
    | .str s =>
      if strStartsWith s "Error" then { state with error := some s, stargazers := [] }
      else { state with error := some "Unexpected string response from fetch_stargazers",
                        stargazers := [] }
    | .list l =>
      match l with
      | h :: t =>
        if strStartsWith h "Error" then { state with error := some h, stargazers := [] }
        else { state with stargazers := h :: t }
      | [] => { state with stargazers := [] }
    | .other ty =>
      { state with error := some ("Unexpected response type: " ++ ty), stargazers := [] }
  { state with current_step := "trace_companies" }

/-- `trace_companies_node` (non-raising path): resolve the first
`min(len(stargazers), max_users)` stargazers and aggregate their companies. -/
def trace_companies_node (userInfoOf : String → UserInfo) (state : AgentState) : AgentState :=
  let max_users := min state.stargazers.length state.max_users
  let pairs := (state.stargazers.take max_users).map (fun u => (u, userInfoOf u))
  { state with companies := aggregate_companies [] pairs,
               current_step := "evaluate_companies" }

/-- `evaluate_companies_node` (non-raising path): look up, score, attach
`source_user`/`user_info`, and rank.  A falsy (empty) lookup result becomes
`"No information found"`; a lookup failure is the oracle returning the
node's `"Error retrieving information: ..."` text. -/
def evaluate_companies_node (companyInfoOf : String → String) (state : AgentState) :
    AgentState :=
  let evals := state.companies.map (fun c =>
    let raw := companyInfoOf c.name
    let company_info := if raw = "" then "No information found" else raw
    (evaluate_company c.name company_info (some c.user_info), c.source_user, c.user_info))
  { state with
      evaluations := rank_companies (fun e => e.1.score) evals,
      current_step := "end" }

/-- `should_continue`. -/
def should_continue (state : AgentState) : String :=
  if truthyErr state.error then "end"
  else
    match state.current_step with
    | "fetch" => "fetch"
    | "trace_companies" => "trace"
    | "evaluate_companies" => "evaluate"
    | _ => "end"

/-- The compiled workflow: conditional entry via `should_continue`, then
the two conditional edges `fetch → trace` and `trace → evaluate`, each
guarded by `not error and <nonempty output>`, then `evaluate → END`.
(`run_agent` always starts at `current_step = "fetch"`, so the entry map
only needs the `"fetch"`/`"end"` targets.) -/
def graph_invoke (o : Oracles) (s0 : AgentState) : AgentState :=
  match should_continue s0 with
  | "fetch" =>
    let s1 := fetch_stargazers_node o.fetchRes s0
    if truthyErr s1.error = false ∧ s1.stargazers ≠ [] then
      let s2 := trace_companies_node o.userInfoOf s1
      if truthyErr s2.error = false ∧ s2.companies ≠ [] then
        evaluate_companies_node o.companyInfoOf s2
      else s2
    else s1
  | _ => s0

/-- The dict returned by `run_agent`. -/
structure RunResult where
  success : Bool
  error : Option String
  evaluations : List (Evaluation × String × UserInfo)
  total_stargazers : Nat
  total_companies : Nat
deriving Repr

/-- The initial state built by `run_agent`. -/
def initial_state (repo : String) (max_stargazers max_users : Nat) : AgentState :=
  { repo := repo, stargazers := [], companies := [], evaluations := [],
    current_step := "fetch", error := none,
    max_stargazers := max_stargazers, max_users := max_users }

/-- `run_agent` (non-raising path of `graph.invoke`). -/
def run_agent (o : Oracles) (repo : String) (max_stargazers max_users : Nat) : RunResult :=
  let result := graph_invoke o (initial_state repo max_stargazers max_users)
  { success := !truthyErr result.error
    error := result.error
    evaluations := result.evaluations
    total_stargazers := result.stargazers.length
    total_companies := result.companies.length }

/-! ### Helper lemmas -/

lemma keyword_sum_nonneg (l : List (String × Int)) (hl : ∀ kv ∈ l, 0 ≤ kv.2)
    (p : String × Int → Bool) : 0 ≤ ((l.filter p).map Prod.snd).sum := by
  apply List.sum_nonneg
  intro x hx
  obtain ⟨kv, hkv, rfl⟩ := List.mem_map.mp hx
  exact hl kv (List.mem_of_mem_filter hkv)

lemma tech_raw_nonneg (s : String) : 0 ≤ tech_raw s :=
  keyword_sum_nonneg tech_keywords (by decide) _

lemma industry_raw_nonneg (s : String) : 0 ≤ industry_raw s :=
  keyword_sum_nonneg industry_keywords (by decide) _

lemma size_points_bounds (n : Nat) : 0 ≤ size_points n ∧ size_points n ≤ 20 := by
  unfold size_points; split_ifs <;> decide

lemma growth_points_bounds (s : String) : 0 ≤ growth_points s ∧ growth_points s ≤ 10 := by
  unfold growth_points; split_ifs <;> decide

lemma bonus_points_bounds (s : String) : 0 ≤ bonus_points s ∧ bonus_points s ≤ 10 := by
  unfold bonus_points; split_ifs <;> decide

lemma evaluate_company_score_eq (name t : String) (u : Option UserInfo) :
    (evaluate_company name t u).score =
      min (tech_score (strLower t) + industry_score (strLower t)
        + size_points (extractSize (strLower t)) + growth_points (strLower t)
        + bonus_points (strLower t)) 100 := rfl

/-- C1: For every company name, info text and optional account record, the
score of the Evaluation returned by `evaluate_company` is in [0, 100]; the
tech sub-score lies in [0, 40], the industry sub-score in [0, 30] and the
size contribution in [0, 20]. -/
theorem C1_score_bounds (name t : String) (u : Option UserInfo) :
    (0 ≤ (evaluate_company name t u).score ∧ (evaluate_company name t u).score ≤ 100)
    ∧ (0 ≤ tech_score (strLower t) ∧ tech_score (strLower t) ≤ 40)
    ∧ (0 ≤ industry_score (strLower t) ∧ industry_score (strLower t) ≤ 30)
    ∧ (0 ≤ size_points (extractSize (strLower t))
        ∧ size_points (extractSize (strLower t)) ≤ 20) := by
  have ht : 0 ≤ tech_score (strLower t) ∧ tech_score (strLower t) ≤ 40 :=
    ⟨le_min (tech_raw_nonneg _) (by decide), min_le_right _ _⟩
  have hi : 0 ≤ industry_score (strLower t) ∧ industry_score (strLower t) ≤ 30 :=
    ⟨le_min (industry_raw_nonneg _) (by decide), min_le_right _ _⟩
  have hs := size_points_bounds (extractSize (strLower t))
  have hg := growth_points_bounds (strLower t)
  have hb := bonus_points_bounds (strLower t)
  refine ⟨⟨?_, ?_⟩, ht, hi, hs⟩
  · rw [evaluate_company_score_eq]
    exact le_min (by linarith [ht.1, hi.1, hs.1, hg.1, hb.1]) (by decide)
  · rw [evaluate_company_score_eq]
    exact min_le_right _ _

lemma filter_orderedInsert {α : Type} (score : α → Int) (s : Int) (a : α) (l : List α) :
    (List.orderedInsert (fun x y => score y ≤ score x) a l).filter (fun e => score e = s)
      = if score a = s
        then a :: l.filter (fun e => score e = s)
        else l.filter (fun e => score e = s) := by
  induction l with
  | nil =>
    by_cases h : score a = s <;>
      simp [List.orderedInsert, List.filter_cons, List.filter_nil, h]
  | cons b t ih =>
    by_cases hba : score b ≤ score a
    · simp only [List.orderedInsert, if_pos hba, List.filter_cons, decide_eq_true_eq]
    · simp only [List.orderedInsert, if_neg hba, List.filter_cons, decide_eq_true_eq, ih]
      split_ifs <;> first | rfl | omega

lemma filter_insertionSort {α : Type} (score : α → Int) (s : Int) (l : List α) :
    (List.insertionSort (fun x y => score y ≤ score x) l).filter (fun e => score e = s)
      = l.filter (fun e => score e = s) := by
  induction l with
  | nil => rfl
  | cons a t ih =>
    simp only [List.insertionSort, filter_orderedInsert, ih, List.filter_cons,
      decide_eq_true_eq]

/-- C2: `rank_companies` returns the same multiset of evaluations, sorted
by score descending, and the sort is stable: for every score value, the
equal-score evaluations appear in the output exactly in input order. -/
theorem C2_rank_sorted_stable (l : List Evaluation) :
    (rank_companies Evaluation.score l).Perm l
    ∧ List.Sorted (fun a b => b.score ≤ a.score) (rank_companies Evaluation.score l)
    ∧ ∀ s : Int, (rank_companies Evaluation.score l).filter (fun e => e.score = s)
        = l.filter (fun e => e.score = s) := by
  refine ⟨List.perm_insertionSort _ l, ?_, fun s => filter_insertionSort Evaluation.score s l⟩
  haveI : IsTotal Evaluation (fun a b => b.score ≤ a.score) :=
    ⟨fun a b => le_total b.score a.score⟩
  haveI : IsTrans Evaluation (fun a b => b.score ≤ a.score) :=
    ⟨fun _ _ _ h1 h2 => le_trans h2 h1⟩
  exact List.sorted_insertionSort _ l

/-- C7: `evaluate_company` is a deterministic pure function of its
arguments: the same `(company_name, info_text, account record)` always
yields the same Evaluation in all fields; moreover (as in the source,
which never reads `user_info`) the result does not depend on the account
record at all. -/
theorem C7_deterministic_pure (name t : String) (u u' : Option UserInfo) :
    evaluate_company name t u = evaluate_company name t u'
    ∧ evaluate_company name t u = evaluate_company name t u := ⟨rfl, rfl⟩

lemma aggregate_names_spec (pairs : List (String × UserInfo)) (processed : List String) :
    ((aggregate_companies processed pairs).map CompanyCandidate.name).Nodup
    ∧ ∀ n ∈ (aggregate_companies processed pairs).map CompanyCandidate.name,
        n ∉ processed := by
  induction pairs generalizing processed with
  | nil => simp [aggregate_companies]
  | cons p rest ih =>
    obtain ⟨user, info⟩ := p
    cases hx : extract_company_name info with
    | none => simpa only [aggregate_companies, hx] using ih processed
    | some name =>
      by_cases hskip : name = "" ∨ name ∈ processed
      · simpa only [aggregate_companies, hx, if_pos hskip] using ih processed
      · push_neg at hskip
        have ihh := ih (name :: processed)
        simp only [aggregate_companies, hx, if_neg (not_or.mpr ⟨hskip.1, hskip.2⟩),
          List.map_cons, List.nodup_cons, List.mem_cons]
        refine ⟨⟨fun hmem => ?_, ihh.1⟩, ?_⟩
        · exact ihh.2 name hmem (List.mem_cons_self _ _)
        · rintro n (rfl | hn)
          · exact hskip.2
          · exact fun hmem => ihh.2 n hn (List.mem_cons_of_mem _ hmem)

lemma mem_aggregate {c : CompanyCandidate} (processed : List String)
    (pairs : List (String × UserInfo)) (hc : c ∈ aggregate_companies processed pairs) :
    c.name ≠ "" ∧ extract_company_name c.user_info = some c.name
    ∧ (c.source_user, c.user_info) ∈ pairs := by
  induction pairs generalizing processed with
  | nil => cases hc
  | cons p rest ih =>
    obtain ⟨user, info⟩ := p
    cases hx : extract_company_name info with
    | none =>
      simp only [aggregate_companies, hx] at hc
      obtain ⟨h1, h2, h3⟩ := ih processed hc
      exact ⟨h1, h2, List.mem_cons_of_mem _ h3⟩
    | some name =>
      simp only [aggregate_companies, hx] at hc
      by_cases hskip : name = "" ∨ name ∈ processed
      · rw [if_pos hskip] at hc
        obtain ⟨h1, h2, h3⟩ := ih processed hc
        exact ⟨h1, h2, List.mem_cons_of_mem _ h3⟩
      · rw [if_neg hskip] at hc
        push_neg at hskip
        rcases List.mem_cons.mp hc with rfl | hc
        · exact ⟨hskip.1, hx, List.mem_cons_self _ _⟩
        · obtain ⟨h1, h2, h3⟩ := ih (name :: processed) hc
          exact ⟨h1, h2, List.mem_cons_of_mem _ h3⟩

/-! Concrete account records for the scenarios. -/

def acmeRec : UserInfo :=
  { username := "u0", company := some "Acme", organizations := [], error := none }

def acmeOrgRec : UserInfo :=
  { username := "u1", company := none, organizations := ["Acme-Org"], error := none }

def acmeDupRec : UserInfo :=
  { username := "u2", company := some "Acme", organizations := [], error := none }

/-- A state entering the trace stage with the given stargazers and
`max_users` limit (as left by a successful fetch). -/
def trace_state (users : List String) (limit : Nat) : AgentState :=
  { initial_state "owner/repo" 1000 limit with
      stargazers := users, current_step := "trace_companies" }

def scenarioC_oracle : String → UserInfo := fun u =>
  if u = "u0" then acmeRec else if u = "u1" then acmeOrgRec else acmeDupRec

/-- C3: the trace stage never emits two candidates with the same company
name (exact string dedup, any stargazer list, any `max_users` limit); a
record with an absent or empty company field and no organizations yields
no candidate; and on the accounts
`[{company:"Acme"}, {company:None, organizations:["Acme-Org"]}, {company:"Acme"}]`
with limit 3 it produces exactly the candidates "Acme" (record 0) and
"Acme-Org" (record 1), in first-seen order. -/
theorem C3_trace_dedup :
    (∀ (oracle : String → UserInfo) (st : AgentState),
      (((trace_companies_node oracle st).companies).map CompanyCandidate.name).Nodup)
    ∧ (∀ (processed : List String) (user uname : String) (err : Option String)
        (rest : List (String × UserInfo)),
        aggregate_companies processed
            ((user, { username := uname, company := none, organizations := [],
                      error := err }) :: rest)
          = aggregate_companies processed rest
        ∧ aggregate_companies processed
            ((user, { username := uname, company := some "", organizations := [],
                      error := err }) :: rest)
          = aggregate_companies processed rest)
    ∧ (trace_companies_node scenarioC_oracle (trace_state ["u0", "u1", "u2"] 3)).companies
        = [{ name := "Acme", source_user := "u0", user_info := acmeRec },
           { name := "Acme-Org", source_user := "u1", user_info := acmeOrgRec }] := by
  refine ⟨fun oracle st => (aggregate_names_spec _ _).1, ?_, by decide⟩
  intro processed user uname err rest
  constructor <;> rfl

/-- C4 counterexample: the trace stage does not strip a leading "@" (a
company field `"@Acme"` yields the candidate name `"@Acme"`), and a name
taken from the organizations list is not trimmed (`" Acme "` survives). -/
theorem C4_counterexample :
    ((trace_companies_node
          (fun _ => { username := "u1", company := some "@Acme", organizations := [],
                      error := none })
          (trace_state ["u1"] 100)).companies).map CompanyCandidate.name = ["@Acme"]
    ∧ strStartsWith "@Acme" "@" = true
    ∧ ((trace_companies_node
          (fun _ => { username := "u2", company := none, organizations := [" Acme "],
                      error := none })
          (trace_state ["u2"] 100)).companies).map CompanyCandidate.name = [" Acme "]
    ∧ strTrim " Acme " ≠ " Acme " := by decide

/-- C4 (amended): every candidate produced by the trace stage has a
non-empty name; a name coming from a truthy company field is that field
whitespace-trimmed (no "@" stripping), and otherwise the name is the first
organization entry verbatim. -/
theorem C4_candidate_name_shape (oracle : String → UserInfo) (st : AgentState)
    (c : CompanyCandidate) (hc : c ∈ (trace_companies_node oracle st).companies) :
    c.name ≠ ""
    ∧ ((∃ cs, c.user_info.company = some cs ∧ cs ≠ "" ∧ c.name = strTrim cs)
       ∨ ((c.user_info.company = none ∨ c.user_info.company = some "")
          ∧ c.user_info.organizations.head? = some c.name)) := by
  obtain ⟨h1, h2, -⟩ := mem_aggregate [] _ hc
  refine ⟨h1, ?_⟩
  cases hcomp : c.user_info.company with
  | none =>
    right
    simp only [extract_company_name, hcomp] at h2
    exact ⟨Or.inl rfl, h2⟩
  | some cs =>
    simp only [extract_company_name, hcomp] at h2
    by_cases hcs : cs = ""
    · right
      subst hcs
      rw [if_pos rfl] at h2
      exact ⟨Or.inr rfl, h2⟩
    · left
      rw [if_neg hcs] at h2
      exact ⟨cs, rfl, hcs, (Option.some_inj.mp h2).symm⟩

/-- Closed witness for `C4_candidate_name_shape` at a concrete trace run. -/
theorem C4_candidate_name_shape_witness :
    ({ name := "Acme", source_user := "u0", user_info := acmeRec } : CompanyCandidate).name ≠ ""
    ∧ ((∃ cs, acmeRec.company = some cs ∧ cs ≠ ""
          ∧ ({ name := "Acme", source_user := "u0", user_info := acmeRec }
              : CompanyCandidate).name = strTrim cs)
       ∨ ((acmeRec.company = none ∨ acmeRec.company = some "")
          ∧ acmeRec.organizations.head? = some "Acme")) :=
  C4_candidate_name_shape scenarioC_oracle (trace_state ["u0", "u1", "u2"] 3)
    { name := "Acme", source_user := "u0", user_info := acmeRec } (by decide)

lemma fetch_node_preserves (fr : FetchResult) (s : AgentState) :
    (fetch_stargazers_node fr s).evaluations = s.evaluations
    ∧ (fetch_stargazers_node fr s).companies = s.companies := by
  cases fr with
  | str s' => by_cases hb : strStartsWith s' "Error" <;> simp [fetch_stargazers_node, hb]
  | list l =>
    cases l with
    | nil => simp [fetch_stargazers_node]
    | cons hd tl => by_cases hb : strStartsWith hd "Error" <;> simp [fetch_stargazers_node, hb]
  | other ty => simp [fetch_stargazers_node]

/-- `graph_invoke` unfolded on a state routed to the fetch node. -/
lemma graph_invoke_fetch (o : Oracles) (s : AgentState)
    (hsc : should_continue s = "fetch") :
    graph_invoke o s =
      (if truthyErr (fetch_stargazers_node o.fetchRes s).error = false
          ∧ (fetch_stargazers_node o.fetchRes s).stargazers ≠ [] then
        if truthyErr (trace_companies_node o.userInfoOf
              (fetch_stargazers_node o.fetchRes s)).error = false
            ∧ (trace_companies_node o.userInfoOf
                (fetch_stargazers_node o.fetchRes s)).companies ≠ [] then
          evaluate_companies_node o.companyInfoOf
            (trace_companies_node o.userInfoOf (fetch_stargazers_node o.fetchRes s))
        else trace_companies_node o.userInfoOf (fetch_stargazers_node o.fetchRes s)
      else fetch_stargazers_node o.fetchRes s) := by
  unfold graph_invoke
  rw [hsc]
  rfl

/-- C5: if the fetch succeeds and the trace stage yields zero candidates,
the run terminates successfully: `success = true`, no error, empty
evaluations (an empty candidate list is not an error). -/
theorem C5_empty_trace_success (o : Oracles) (repo hd : String) (t : List String)
    (ms mu : Nat)
    (hfetch : o.fetchRes = FetchResult.list (hd :: t))
    (hok : strStartsWith hd "Error" = false)
    (hempty : aggregate_companies []
        (((hd :: t).take (min (hd :: t).length mu)).map (fun u => (u, o.userInfoOf u)))
        = []) :
    (run_agent o repo ms mu).success = true
    ∧ (run_agent o repo ms mu).error = none
    ∧ (run_agent o repo ms mu).evaluations = [] := by
  have e1 : fetch_stargazers_node o.fetchRes (initial_state repo ms mu)
      = { initial_state repo ms mu with
            stargazers := hd :: t, current_step := "trace_companies" } := by
    rw [hfetch]
    simp [fetch_stargazers_node, hok]
  have e2 : trace_companies_node o.userInfoOf
        ({ initial_state repo ms mu with
            stargazers := hd :: t, current_step := "trace_companies" })
      = { initial_state repo ms mu with
            stargazers := hd :: t, companies := [],
            current_step := "evaluate_companies" } := by
    simp only [trace_companies_node, initial_state]
    rw [hempty]
  have final : graph_invoke o (initial_state repo ms mu)
      = { initial_state repo ms mu with
            stargazers := hd :: t, companies := [],
            current_step := "evaluate_companies" } := by
    have hsc : should_continue (initial_state repo ms mu) = "fetch" := rfl
    rw [graph_invoke_fetch o (initial_state repo ms mu) hsc, e1, e2]
    rw [if_pos ⟨by simp [initial_state, truthyErr], by simp [initial_state]⟩]
    rw [if_neg (by simp [initial_state])]
  refine ⟨?_, ?_, ?_⟩ <;>
    · simp only [run_agent]
      rw [final]
      simp [initial_state, truthyErr]

/-- C6: a fetch-stage error makes the run fail with no evaluations and no
companies, the later stages never running; and more generally any state
whose error field is truthy short-circuits the whole workflow. -/
theorem C6_fetch_error_short_circuit :
    (∀ (o : Oracles) (repo : String) (ms mu : Nat),
      truthyErr (fetch_stargazers_node o.fetchRes (initial_state repo ms mu)).error = true →
      (run_agent o repo ms mu).success = false
      ∧ (run_agent o repo ms mu).evaluations = []
      ∧ (run_agent o repo ms mu).total_companies = 0)
    ∧ (∀ (o : Oracles) (s : AgentState),
        truthyErr s.error = true → graph_invoke o s = s) := by
  constructor
  · intro o repo ms mu herr
    have e3 : graph_invoke o (initial_state repo ms mu)
        = fetch_stargazers_node o.fetchRes (initial_state repo ms mu) := by
      have hsc : should_continue (initial_state repo ms mu) = "fetch" := rfl
      rw [graph_invoke_fetch o (initial_state repo ms mu) hsc]
      rw [if_neg (by simp [herr])]
    have hpres := fetch_node_preserves o.fetchRes (initial_state repo ms mu)
    refine ⟨?_, ?_, ?_⟩
    · simp only [run_agent]
      rw [e3, herr]
      rfl
    · simp only [run_agent]
      rw [e3, hpres.1]
      rfl
    · simp only [run_agent]
      rw [e3, hpres.2]
      rfl
  · intro o s herr
    simp only [graph_invoke, should_continue, herr]
    simp

/-- Oracle for the C5 witness: one stargazer that resolves to no company. -/
def c5Oracle : Oracles :=
  { fetchRes := FetchResult.list ["user1"],
    userInfoOf := fun u =>
      { username := u, company := none, organizations := [], error := none },
    companyInfoOf := fun _ => "" }

/-- Closed witness for `C5_empty_trace_success`. -/
theorem C5_empty_trace_success_witness :
    (run_agent c5Oracle "owner/repo" 5 5).success = true
    ∧ (run_agent c5Oracle "owner/repo" 5 5).error = none
    ∧ (run_agent c5Oracle "owner/repo" 5 5).evaluations = [] :=
  C5_empty_trace_success c5Oracle "owner/repo" "user1" [] 5 5 rfl (by decide) (by decide)

/-- Oracle for the C6 witness: the discovery boundary returns an error
marker. -/
def c6Oracle : Oracles :=
  { fetchRes := FetchResult.str "Error fetching stargazers: not found",
    userInfoOf := fun u =>
      { username := u, company := none, organizations := [], error := none },
    companyInfoOf := fun _ => "" }

/-- Closed witness for `C6_fetch_error_short_circuit`. -/
theorem C6_fetch_error_short_circuit_witness :
    ((run_agent c6Oracle "owner/repo" 5 5).success = false
     ∧ (run_agent c6Oracle "owner/repo" 5 5).evaluations = []
     ∧ (run_agent c6Oracle "owner/repo" 5 5).total_companies = 0)
    ∧ graph_invoke c6Oracle
        { initial_state "owner/repo" 5 5 with error := some "Error: boom" }
      = { initial_state "owner/repo" 5 5 with error := some "Error: boom" } :=
  ⟨C6_fetch_error_short_circuit.1 c6Oracle "owner/repo" 5 5 (by decide),
   C6_fetch_error_short_circuit.2 c6Oracle
     { initial_state "owner/repo" 5 5 with error := some "Error: boom" } (by decide)⟩

/-- C8: the company-size sub-score is the single contribution of the first
matching size pattern (fixed pattern order, then earliest text position) on
the case-folded text; the thresholds are ≥1000→20, ≥200→15, ≥50→10,
≥10→5, else 0; the `company_size` field is the parsed positive integer if
one was found and `"Unknown"` otherwise.  The pattern-priority and
earliest-position tie-breaks are exhibited on concrete texts. -/
theorem C8_size_extraction (name t : String) (u : Option UserInfo) :
    ((evaluate_company name t u).company_size
        = if 0 < extractSize (strLower t) then SizeField.known (extractSize (strLower t))
          else SizeField.unknown)
    ∧ ((evaluate_company name t u).score
        = min (tech_score (strLower t) + industry_score (strLower t)
            + size_points (extractSize (strLower t)) + growth_points (strLower t)
            + bonus_points (strLower t)) 100)
    ∧ (∀ n : Nat, size_points n
        = if 1000 ≤ n then 20 else if 200 ≤ n then 15 else if 50 ≤ n then 10
          else if 10 ≤ n then 5 else 0)
    ∧ extractSize "team of 30 with 500 employees" = 500
    ∧ extractSize "10 employees and 500 employees" = 10 := by
  refine ⟨rfl, rfl, ?_, by decide, by decide⟩
  intro n
  unfold size_points
  split_ifs <;> omega

def scenarioA_text : String :=
  "AI and machine learning company with web scraping and 500 employees, Series B funding"

/-- C9 counterexample: on the Scenario A text the code gives the size tier
15 (not 20) and a total of 65, so the claimed total ≥ 70 with
recommendation "High Priority" is false. -/
theorem C9_counterexample :
    ¬ (70 ≤ (evaluate_company "TechCorp" scenarioA_text none).score
       ∧ (evaluate_company "TechCorp" scenarioA_text none).recommendation = "High Priority"
       ∧ size_points (extractSize (strLower scenarioA_text)) = 20) := by decide

/-- C9 (amended): on the Scenario A text the tech sub-score is 40 (≥ 35),
the size is parsed as 500 giving the 15-point mid-size tier, growth
contributes 10, the total score is 65, and the recommendation is
"Medium Priority". -/
theorem C9_scenarioA :
    tech_score (strLower scenarioA_text) = 40
    ∧ extractSize (strLower scenarioA_text) = 500
    ∧ size_points (extractSize (strLower scenarioA_text)) = 15
    ∧ growth_points (strLower scenarioA_text) = 10
    ∧ (evaluate_company "TechCorp" scenarioA_text none).score = 65
    ∧ (evaluate_company "TechCorp" scenarioA_text none).recommendation
        = "Medium Priority" := by decide

lemma containsSub_eq_true_iff (hay needle : List Char) :
    containsSub hay needle = true ↔ needle <:+: hay := by
  induction hay with
  | nil =>
    simp [containsSub, List.isEmpty_iff]
  | cons c t ih =>
    rw [containsSub, Bool.or_eq_true, ih, List.infix_cons_iff, List.isPrefixOf_iff_prefix]

lemma filter_map_snd_sum (l : List (String × Int)) (p : String × Int → Bool) :
    ((l.filter p).map Prod.snd).sum
      = (l.map (fun kv => if p kv then kv.2 else 0)).sum := by
  induction l with
  | nil => rfl
  | cons kv rest ih => by_cases h : p kv <;> simp [List.filter_cons, h, ih]

/-- C10: keyword matching is plain substring search on the case-folded
text, and overlapping keywords contribute independently: any text
containing "web scraping" also matches "scraping", and the two contribute
15 + 15 = 30 tech points before the 40 cap; the text "machine learning"
matches the "machine learning" keyword but not "ai" (no "ai" substring),
while a text with "ai" as a substring ("aid for machine learning") also
collects the "ai" weight. -/
theorem C10_substring_overlap :
    (∀ cs : List Char, containsSub cs "web scraping".data = true → 30 ≤ tech_raw ⟨cs⟩)
    ∧ containsSub "machine learning".data "machine learning".data = true
    ∧ containsSub "machine learning".data "ai".data = false
    ∧ tech_raw "machine learning" = 10
    ∧ containsSub "aid for machine learning".data "ai".data = true
    ∧ tech_raw "aid for machine learning" = 20 := by
  refine ⟨?_, by decide, by decide, by decide, by decide, by decide⟩
  intro cs h1
  have h2 : containsSub cs "scraping".data = true :=
    (containsSub_eq_true_iff cs _).mpr
      (List.IsInfix.trans ((containsSub_eq_true_iff "web scraping".data _).mp (by decide))
        ((containsSub_eq_true_iff cs _).mp h1))
  have hcs : (⟨cs⟩ : String).data = cs := rfl
  have hbase : List.Sublist [("scraping", (15 : Int)), ("web scraping", 15)] tech_keywords := by
    decide
  have hfil := hbase.filter (fun kv => containsSub cs kv.1.data)
  rw [show ([("scraping", (15 : Int)), ("web scraping", 15)].filter
        (fun kv => containsSub cs kv.1.data))
      = [("scraping", (15 : Int)), ("web scraping", 15)] from by
    simp [List.filter_cons, h1, h2]] at hfil
  have hmap : List.Sublist [(15 : Int), 15]
      ((tech_keywords.filter (fun kv => containsSub cs kv.1.data)).map Prod.snd) := by
    simpa using hfil.map Prod.snd
  have hnn : ∀ x ∈ (tech_keywords.filter (fun kv => containsSub cs kv.1.data)).map Prod.snd,
      (0 : Int) ≤ x := by
    intro x hx
    obtain ⟨kv, hkv, rfl⟩ := List.mem_map.mp hx
    have hall : ∀ kv ∈ tech_keywords, (0 : Int) ≤ kv.2 := by decide
    exact hall kv (List.mem_of_mem_filter hkv)
  have := hmap.sum_le_sum hnn
  simpa [tech_raw, hcs] using this

/-- Closed witness for `C10_substring_overlap` (first conjunct) at the
text "web scraping" itself. -/
theorem C10_substring_overlap_witness :
    30 ≤ tech_raw ⟨"web scraping".data⟩ :=
  C10_substring_overlap.1 "web scraping".data (by decide)

end ScrapeHub
